import Mathlib

/-!
Verification of the ai-photo-rotator generation client and page orchestration.

The embedding models the TypeScript source of `src/services/geminiService.ts`
(retry wrapper, prompt-response parsing, image-response handling), the
duplicate service copy in `src/unnamed/part_001`, and the page component's
`processImage` / `resetState` orchestration in `src/unnamed/part_000`.

Modelling conventions:
- JavaScript strings are `List Char` (or `String`); `p.length` is the list
  length (UTF-16 length coincides for the inputs considered here).
- A thrown JS error from the SDK is a `JsError` record carrying the optional
  `status` and `message` fields that the source inspects.
- An asynchronous operation handed to the retry wrapper is modelled as a
  function from the invocation index (0-based) to its outcome on that
  invocation; the wrapper result is instrumented with the total number of
  invocations and the list of delays waited, which the source realises via
  `setTimeout` side effects.
-/

namespace PhotoRot

/-- JavaScript substring test used to mirror `String.prototype.includes`:
`startsWithL sub cs` is true when `sub` occurs at the head of `cs`. -/
def startsWithL : List Char → List Char → Bool
  | [], _ => true
  | _ :: _, [] => false
  | a :: as, b :: bs => a == b && startsWithL as bs

/-- JavaScript `cs.includes(sub)`: `sub` occurs contiguously somewhere in `cs`. -/
def containsL (sub : List Char) : List Char → Bool
  | [] => startsWithL sub []
  | c :: tl => startsWithL sub (c :: tl) || containsL sub tl

/-- String-level wrapper for `containsL`. -/
def containsStr (sub s : String) : Bool :=
  containsL sub.toList s.toList

/-- The fields of a thrown SDK error that `retryWithBackoff` inspects:
`error?.status` and `error?.message` (each possibly absent). -/
structure JsError where
  status : Option Int
  message : Option String
deriving DecidableEq

/-- Embeds the overload test of `retryWithBackoff`
(src/services/geminiService.ts lines 19-22):
`error?.status === 503 || error?.message?.includes('overloaded') ||
error?.message?.includes('503')`. -/
def isOverloaded (e : JsError) : Bool :=
  e.status == some 503 ||
    (match e.message with
     | some m => containsStr "overloaded" m || containsStr "503" m
     | none => false)

/-- Instrumented outcome of a retry-wrapped operation: the final result,
the total number of invocations of the operation, and the list of delays
(in milliseconds) waited before each retry, in order. -/
structure RetryTrace (α : Type) where
  result : Except JsError α
  calls : Nat
  delays : List Nat

/-- Embeds `retryWithBackoff` (src/services/geminiService.ts lines 15-31).
The operation `fn` is indexed by invocation number `k`; `retries` and `delay`
are the wrapper parameters (defaults 3 and 2000 at every call site). On a
failure that `isOverloaded` classifies as transient and with budget left, the
wrapper waits `delay`, then recurses with `retries - 1` and `delay * 2`;
otherwise the failure propagates unchanged. -/
def retryWithBackoff (fn : Nat → Except JsError α) : Nat → Nat → Nat → RetryTrace α
  | 0, _, k =>
    match fn k with
    | Except.ok v => ⟨Except.ok v, 1, []⟩
    | Except.error e => ⟨Except.error e, 1, []⟩
  | r + 1, delay, k =>
    match fn k with
    | Except.ok v => ⟨Except.ok v, 1, []⟩
    | Except.error e =>
      if isOverloaded e then
        let t := retryWithBackoff fn r (delay * 2) (k + 1)
        ⟨t.result, t.calls + 1, delay :: t.delays⟩
      else ⟨Except.error e, 1, []⟩

/-- Helper: prepending the base delay to the doubled-delay list of `n`
retries yields the delay list of `n + 1` retries. -/
theorem delaysShift (d n : Nat) :
    d :: (List.range n).map (fun j => d * 2 * 2 ^ j) =
      (List.range (n + 1)).map (fun j => d * 2 ^ j) := by
  rw [List.range_succ_eq_map, List.map_cons, List.map_map]
  refine congrArg₂ List.cons (by simp) ?_
  refine congrArg (fun f => List.map f (List.range n)) ?_
  funext j
  show d * 2 * 2 ^ j = d * 2 ^ (j + 1)
  rw [pow_succ]; ring

/-- Helper: if the operation fails with an overload signal on invocations
`k, …, k + N - 1` and succeeds on invocation `k + N`, then with budget
`r ≥ N` the wrapper returns that success after `N + 1` invocations, waiting
`d * 2 ^ j` before the `(j+1)`-th retry. -/
theorem retryWithBackoff_ok_general {α : Type} (fn : Nat → Except JsError α) :
    ∀ (N r d k : Nat) (v : α), N ≤ r →
    (∀ j, k ≤ j → j < k + N → ∃ e, fn j = Except.error e ∧ isOverloaded e = true) →
    fn (k + N) = Except.ok v →
    retryWithBackoff fn r d k =
      ⟨Except.ok v, N + 1, (List.range N).map (fun j => d * 2 ^ j)⟩ := by
  intro N
  induction N with
  | zero =>
    intro r d k v _ _ hok
    simp only [Nat.add_zero] at hok
    cases r with
    | zero => simp only [retryWithBackoff]; rw [hok]; rfl
    | succ r => simp only [retryWithBackoff]; rw [hok]; rfl
  | succ N ih =>
    intro r d k v hNr hfail hok
    cases r with
    | zero => omega
    | succ r =>
      obtain ⟨e, he, hov⟩ := hfail k (Nat.le_refl k) (by omega)
      have hrec := ih r (d * 2) (k + 1) v (by omega)
        (fun j hj1 hj2 => hfail j (by omega) (by omega))
        (by have : k + 1 + N = k + (N + 1) := by omega
            rw [this]; exact hok)
      simp only [retryWithBackoff]
      rw [he]
      simp only [hov, if_true, hrec]
      exact congrArg (RetryTrace.mk (Except.ok v) (N + 1 + 1)) (delaysShift d N)

/-- Helper: if the operation fails with an overload signal on every invocation
`k, …, k + r`, the wrapper exhausts its budget of `r` retries, performing
`r + 1` invocations and propagating the last failure. -/
theorem retryWithBackoff_fail_general {α : Type} (fn : Nat → Except JsError α) :
    ∀ (r d k : Nat),
    (∀ j, k ≤ j → j ≤ k + r → ∃ e, fn j = Except.error e ∧ isOverloaded e = true) →
    ∃ e, fn (k + r) = Except.error e ∧
      retryWithBackoff fn r d k =
        ⟨Except.error e, r + 1, (List.range r).map (fun j => d * 2 ^ j)⟩ := by
  intro r
  induction r with
  | zero =>
    intro d k hfail
    obtain ⟨e, he, _⟩ := hfail k (Nat.le_refl k) (by omega)
    refine ⟨e, by simpa using he, ?_⟩
    simp only [retryWithBackoff]
    rw [he]
    simp
  | succ r ih =>
    intro d k hfail
    obtain ⟨e0, he0, hov0⟩ := hfail k (Nat.le_refl k) (by omega)
    obtain ⟨e, he, hrec⟩ := ih (d * 2) (k + 1)
      (fun j hj1 hj2 => hfail j (by omega) (by omega))
    refine ⟨e, by have : k + 1 + r = k + (r + 1) := by omega
                  rw [this] at he; exact he, ?_⟩
    simp only [retryWithBackoff]
    rw [he0]
    simp only [hov0, if_true, hrec]
    exact congrArg (RetryTrace.mk (Except.error e) (r + 1 + 1)) (delaysShift d r)

/-- C1: with the default parameters (budget 3, base delay 2000ms), an
operation that fails with a transient-overload signal on each of its first
`N ≤ 3` invocations and succeeds on the next makes `retryWithBackoff` return
that success after exactly `N + 1` invocations, having waited
`2000 * 2 ^ (k - 1)` ms before the `k`-th retry (`k = 1..N`); and an
operation that fails with an overload signal on every one of its first four
invocations makes the wrapper stop after 4 invocations, propagating the
fourth (last) failure. -/
theorem retryWithBackoff_overload_spec :
    (∀ (α : Type) (fn : Nat → Except JsError α) (N : Nat) (v : α), N ≤ 3 →
      (∀ j, j < N → ∃ e, fn j = Except.error e ∧ isOverloaded e = true) →
      fn N = Except.ok v →
      retryWithBackoff fn 3 2000 0 =
        ⟨Except.ok v, N + 1, (List.range N).map (fun j => 2000 * 2 ^ j)⟩)
    ∧ (∀ (α : Type) (fn : Nat → Except JsError α),
      (∀ j, j ≤ 3 → ∃ e, fn j = Except.error e ∧ isOverloaded e = true) →
      ∃ e, fn 3 = Except.error e ∧
        retryWithBackoff fn 3 2000 0 = ⟨Except.error e, 4, [2000, 4000, 8000]⟩) := by
  constructor
  · intro α fn N v hN hfail hok
    exact retryWithBackoff_ok_general fn N 3 2000 0 v hN
      (fun j _ hj => hfail j (by omega)) (by simpa using hok)
  · intro α fn hfail
    obtain ⟨e, he, hr⟩ := retryWithBackoff_fail_general fn 3 2000 0
      (fun j _ hj => hfail j (by omega))
    refine ⟨e, by simpa using he, ?_⟩
    rw [hr]
    rfl

/-- Concrete operation for the C1 witness: overload failures (status 503) on
invocations 0 and 1, success with value 7 on invocation 2. -/
def fnOverloadTwice : Nat → Except JsError Nat :=
  fun j => if j < 2 then Except.error ⟨some 503, none⟩ else Except.ok 7

/-- Witness for C1: the concrete operation failing twice with status 503 then
succeeding is retried twice with delays 2000 and 4000 and returns 7 after 3
invocations. -/
theorem retryWithBackoff_overload_witness :
    retryWithBackoff fnOverloadTwice 3 2000 0 = ⟨Except.ok 7, 3, [2000, 4000]⟩ := by
  have h := retryWithBackoff_overload_spec.1 Nat fnOverloadTwice 2 7 (by omega)
    (fun j hj => ⟨⟨some 503, none⟩, by
        interval_cases j <;> rfl, by decide⟩)
    (by rfl)
  rw [h]
  rfl

/-- C2: a failure that carries no transient-overload signal (status is not
503 and the message contains neither "overloaded" nor "503") is propagated
unchanged after a single invocation, with no delay and no retry, whatever
retry budget and delay remain. -/
theorem retryWithBackoff_nonoverload_spec {α : Type} (fn : Nat → Except JsError α)
    (r d k : Nat) (e : JsError)
    (hf : fn k = Except.error e) (hno : isOverloaded e = false) :
    retryWithBackoff fn r d k = ⟨Except.error e, 1, []⟩ := by
  cases r with
  | zero => simp only [retryWithBackoff]; rw [hf]
  | succ r => simp only [retryWithBackoff]; rw [hf]; simp [hno]

/-- Concrete error for the C2 witness: no status, message "generic failure"
(which contains neither "overloaded" nor "503"). -/
def genericErr : JsError := ⟨none, some "generic failure"⟩

/-- Witness for C2: an operation always failing with `genericErr` is invoked
exactly once by the wrapper even with budget 5, and the error propagates
unchanged with no delays. -/
theorem retryWithBackoff_nonoverload_witness :
    retryWithBackoff (fun _ => (Except.error genericErr : Except JsError Nat)) 5 100 0 =
      ⟨Except.error genericErr, 1, []⟩ :=
  retryWithBackoff_nonoverload_spec
    (fun _ => (Except.error genericErr : Except JsError Nat)) 5 100 0
    genericErr rfl (by decide)

/-- C9: for every operation, every retry budget `r`, every delay and starting
index, the wrapper terminates (it is a total function, structurally recursive
on the strictly decreasing budget) and invokes the operation at most `r + 1`
times. -/
theorem retryWithBackoff_call_bound {α : Type} (fn : Nat → Except JsError α) :
    ∀ (r d k : Nat), (retryWithBackoff fn r d k).calls ≤ r + 1 := by
  intro r
  induction r with
  | zero =>
    intro d k
    simp only [retryWithBackoff]
    cases fn k <;> simp
  | succ r ih =>
    intro d k
    simp only [retryWithBackoff]
    cases fn k with
    | ok v => simp
    | error e =>
      by_cases hov : isOverloaded e = true
      · simp only [hov, if_true]
        have := ih (d * 2) (k + 1)
        simpa using Nat.add_le_add_right this 1
      · simp only [Bool.not_eq_true] at hov
        simp [hov]

/-! ### Defensive prompt-response parsing

Embedding of the parsing stage of `getRotationPrompts`
(src/services/geminiService.ts lines 119-157 and the duplicate copy in
src/unnamed/part_001 lines 95-133). The stage receives the raw model text
(`response.text || ""`), strips Markdown code fences, extracts the
substring between the first brace and the last closing brace, parses it as
JSON (`JSON.parse`), and validates the shape. JSON values are modelled by
`JVal`; numeric literals keep their raw text since the source never uses a
numeric value, only `typeof` and array shapes. -/

/-- The opening-brace character. -/
def braceO : Char := Char.ofNat 123

/-- The closing-brace character. -/
def braceC : Char := Char.ofNat 125

/-- The backtick character used by Markdown code fences. -/
def tickChar : Char := Char.ofNat 96

/-- JSON value produced by `JSON.parse`; `jnum` keeps the raw literal text,
`jobj` keeps fields in textual order (later duplicates win on lookup, as in
JavaScript). -/
inductive JVal where
  | jnull
  | jbool (b : Bool)
  | jnum (raw : List Char)
  | jstr (s : List Char)
  | jarr (xs : List JVal)
  | jobj (fields : List (List Char × JVal))

/-- JSON insignificant whitespace (space, tab, line feed, carriage return). -/
def skipWs (cs : List Char) : List Char :=
  cs.dropWhile (fun c => c == ' ' || c == '\t' || c == '\n' || c == '\r')

/-- Value of one hexadecimal digit, if any (digit codes 48-57, lowercase
97-102, uppercase 65-70). -/
def hexDigit? (c : Char) : Option Nat :=
  let n := c.toNat
  if 48 ≤ n && n ≤ 57 then some (n - 48)
  else if 97 ≤ n && n ≤ 102 then some (n - 87)
  else if 65 ≤ n && n ≤ 70 then some (n - 55)
  else none

/-- Single-character JSON string escapes: the quote (34), backslash (92)
and slash (47) map to themselves; `b`, `f`, `n`, `r`, `t` map to the
control characters 8, 12, 10, 13, 9. -/
def escChar? (c : Char) : Option Char :=
  match c.toNat with
  | 34 => some c
  | 92 => some c
  | 47 => some c
  | 98 => some (Char.ofNat 8)
  | 102 => some (Char.ofNat 12)
  | 110 => some (Char.ofNat 10)
  | 114 => some (Char.ofNat 13)
  | 116 => some (Char.ofNat 9)
  | _ => none

/-- Parses the body of a JSON string after the opening quote, returning the
decoded characters and the input following the closing quote. Unescaped
control characters are rejected, as `JSON.parse` does. -/
def parseStrBody : List Char → Option (List Char × List Char)
  | [] => none
  | '"' :: cs => some ([], cs)
  | '\\' :: 'u' :: a :: b :: c :: d :: cs => do
    let ha ← hexDigit? a
    let hb ← hexDigit? b
    let hc ← hexDigit? c
    let hd ← hexDigit? d
    let (s, rest) ← parseStrBody cs
    pure (Char.ofNat (((ha * 16 + hb) * 16 + hc) * 16 + hd) :: s, rest)
  | '\\' :: e :: cs => do
    let c ← escChar? e
    let (s, rest) ← parseStrBody cs
    pure (c :: s, rest)
  | c :: cs =>
    if c.toNat < 32 then none
    else do
      let (s, rest) ← parseStrBody cs
      pure (c :: s, rest)

/-- Integer part of a JSON number: `0`, or a nonzero digit followed by
digits. -/
def parseIntPart : List Char → Option (List Char × List Char)
  | [] => none
  | c :: cs =>
    if c == '0' then some (['0'], cs)
    else if c.isDigit then
      some (c :: cs.takeWhile Char.isDigit, cs.dropWhile Char.isDigit)
    else none

/-- Optional fraction part of a JSON number (`.` followed by one or more
digits); consumes nothing when absent or ill-formed. -/
def parseFracPart (cs : List Char) : List Char × List Char :=
  match cs with
  | '.' :: tl =>
    let ds := tl.takeWhile Char.isDigit
    if ds.isEmpty then ([], cs) else ('.' :: ds, tl.dropWhile Char.isDigit)
  | _ => ([], cs)

/-- Optional exponent part of a JSON number; consumes nothing when absent or
ill-formed. -/
def parseExpPart (cs : List Char) : List Char × List Char :=
  match cs with
  | c :: tl =>
    if c == 'e' || c == 'E' then
      let (sgn, tl2) := match tl with
        | s :: tl' => if s == '+' || s == '-' then ([s], tl') else (([] : List Char), tl)
        | [] => ([], tl)
      let ds := tl2.takeWhile Char.isDigit
      if ds.isEmpty then ([], cs) else (c :: (sgn ++ ds), tl2.dropWhile Char.isDigit)
    else ([], cs)
  | [] => ([], cs)

/-- Parses a JSON numeric literal, returning its raw text and the rest. -/
def parseNum (cs : List Char) : Option (List Char × List Char) :=
  let (neg, cs1) := match cs with | '-' :: tl => ((['-'] : List Char), tl) | _ => ([], cs)
  match parseIntPart cs1 with
  | none => none
  | some (ip, cs2) =>
    let (fp, cs3) := parseFracPart cs2
    let (ep, cs4) := parseExpPart cs3
    some (neg ++ ip ++ fp ++ ep, cs4)

mutual

/-- Fuelled recursive-descent parser for one JSON value, mirroring the
grammar accepted by `JSON.parse`. -/
def parseVal : Nat → List Char → Option (JVal × List Char)
  | 0, _ => none
  | f + 1, cs =>
    match skipWs cs with
    | [] => none
    | c :: cs' =>
      if c == braceO then
        match skipWs cs' with
        | [] => none
        | d :: rest =>
          if d == braceC then some (JVal.jobj [], rest)
          else
            match parseMembers f (d :: rest) with
            | some (ms, r) => some (JVal.jobj ms, r)
            | none => none
      else if c == '[' then
        match skipWs cs' with
        | [] => none
        | d :: rest =>
          if d == ']' then some (JVal.jarr [], rest)
          else
            match parseElems f (d :: rest) with
            | some (xs, r) => some (JVal.jarr xs, r)
            | none => none
      else if c == '"' then
        match parseStrBody cs' with
        | some (s, rest) => some (JVal.jstr s, rest)
        | none => none
      else if c == 't' then
        match cs' with
        | 'r' :: 'u' :: 'e' :: rest => some (JVal.jbool true, rest)
        | _ => none
      else if c == 'f' then
        match cs' with
        | 'a' :: 'l' :: 's' :: 'e' :: rest => some (JVal.jbool false, rest)
        | _ => none
      else if c == 'n' then
        match cs' with
        | 'u' :: 'l' :: 'l' :: rest => some (JVal.jnull, rest)
        | _ => none
      else
        match parseNum (c :: cs') with
        | some (raw, rest) => some (JVal.jnum raw, rest)
        | none => none

/-- Fuelled parser for the comma-separated elements of a nonempty JSON
array, consuming the closing bracket. -/
def parseElems : Nat → List Char → Option (List JVal × List Char)
  | 0, _ => none
  | f + 1, cs =>
    match parseVal f cs with
    | none => none
    | some (v, rest) =>
      match skipWs rest with
      | [] => none
      | d :: rest' =>
        if d == ',' then
          match parseElems f rest' with
          | some (vs, rest'') => some (v :: vs, rest'')
          | none => none
        else if d == ']' then some ([v], rest')
        else none

/-- Fuelled parser for the members of a nonempty JSON object, consuming the
closing brace. -/
def parseMembers : Nat → List Char → Option (List (List Char × JVal) × List Char)
  | 0, _ => none
  | f + 1, cs =>
    match skipWs cs with
    | '"' :: cs' =>
      match parseStrBody cs' with
      | none => none
      | some (key, rest) =>
        match skipWs rest with
        | ':' :: rest' =>
          match parseVal f rest' with
          | none => none
          | some (v, rest'') =>
            match skipWs rest'' with
            | [] => none
            | d :: r3 =>
              if d == ',' then
                match parseMembers f r3 with
                | some (ms, r4) => some ((key, v) :: ms, r4)
                | none => none
              else if d == braceC then some ([(key, v)], r3)
              else none
        | _ => none
    | _ => none

end

/-- Embeds `JSON.parse`: parses one complete JSON value, allowing only
trailing whitespace. The fuel `2 * length + 4` dominates the recursion
depth of any input of the given length. -/
def jsonParse (cs : List Char) : Option JVal :=
  match parseVal (2 * cs.length + 4) cs with
  | some (v, rest) => if (skipWs rest).isEmpty then some v else none
  | none => none

/-- Case-insensitive match of `pat` at the head of the input, returning the
remaining input on success (mirrors one step of a `/…/gi` regex scan). -/
def matchCI : List Char → List Char → Option (List Char)
  | [], rest => some rest
  | _ :: _, [] => none
  | p :: ps, c :: cs => if p.toLower == c.toLower then matchCI ps cs else none

/-- Fuelled left-to-right removal of every non-overlapping occurrence of
`pat`, mirroring `String.prototype.replace` with a global regex and an
empty replacement. -/
def removeAllFuel (pat : List Char) : Nat → List Char → List Char
  | 0, cs => cs
  | _ + 1, [] => []
  | n + 1, c :: cs =>
    match matchCI pat (c :: cs) with
    | some rest => removeAllFuel pat n rest
    | none => c :: removeAllFuel pat n cs

/-- Removes every case-insensitive occurrence of `pat` from `cs`. -/
def removeAll (pat cs : List Char) : List Char :=
  removeAllFuel pat cs.length cs

/-- The fence marker pattern of three backticks followed by `json`
(matched case-insensitively by the source's regex). -/
def fenceJson : List Char := [tickChar, tickChar, tickChar, 'j', 's', 'o', 'n']

/-- The bare three-backtick fence marker. -/
def fenceBare : List Char := [tickChar, tickChar, tickChar]

/-- Whitespace removed by JavaScript `String.prototype.trim`: ASCII
whitespace, no-break space, BOM, and the Unicode line and paragraph
separators. -/
def isJsWsTrim (c : Char) : Bool :=
  c == ' ' || c == '\t' || c == '\n' || c == '\r' ||
  c.toNat == 11 || c.toNat == 12 || c.toNat == 160 || c.toNat == 65279 ||
  c.toNat == 8232 || c.toNat == 8233

/-- JavaScript `trim`: removes leading and trailing whitespace. -/
def trimJs (cs : List Char) : List Char :=
  ((cs.dropWhile isJsWsTrim).reverse.dropWhile isJsWsTrim).reverse

/-- Index of the first occurrence of `c`, mirroring `String.indexOf`
(`none` for the JavaScript result `-1`). -/
def firstIdx? (c : Char) : List Char → Option Nat
  | [] => none
  | a :: as => if a == c then some 0 else (firstIdx? c as).map (· + 1)

/-- Index of the last occurrence of `c`, mirroring `String.lastIndexOf`. -/
def lastIdx? (c : Char) (cs : List Char) : Option Nat :=
  match firstIdx? c cs.reverse with
  | some i => some (cs.length - 1 - i)
  | none => none

/-- Embeds the brace-extraction step of `getRotationPrompts` (lines
126-132): when the text has a first opening brace at `i` and a last
closing brace at `j ≥ i`, keep `substring(i, j + 1)`; otherwise leave the
text unchanged. -/
def extractBraces (cs : List Char) : List Char :=
  match firstIdx? braceO cs, lastIdx? braceC cs with
  | some i, some j => if i ≤ j then (cs.drop i).take (j + 1 - i) else cs
  | _, _ => cs

/-- The full preprocessing of the raw model text before `JSON.parse`
(lines 120-132, identical in both source copies): remove every
case-insensitive fence marker with `json`, remove every bare fence marker,
trim, then extract the brace-bounded substring. -/
def preprocess (cs : List Char) : List Char :=
  extractBraces (trimJs (removeAll fenceBare (removeAll fenceJson cs)))

/-- The key of the documented response shape. -/
def promptsKey : List Char := String.toList "prompts"

/-- JavaScript object property lookup on a `JSON.parse` result: the last
field with the given key wins, as later duplicate keys overwrite earlier
ones. -/
def lookupLast (k : List Char) : List (List Char × JVal) → Option JVal
  | [] => none
  | (k', v) :: rest =>
    match lookupLast k rest with
    | some v' => some v'
    | none => if k' == k then some v else none

/-- Embeds the check `result && Array.isArray(result.prompts)` (line 136):
on a `JSON.parse` result only an object can own a `prompts` property, so
the check succeeds exactly when the value is an object whose `prompts`
field is an array, yielding that array. -/
def getPromptsField : JVal → Option (List JVal)
  | JVal.jobj fs =>
    match lookupLast promptsKey fs with
    | some (JVal.jarr ps) => some ps
    | _ => none
  | _ => none

/-- Embeds the filter predicate of line 138:
`typeof p === 'string' && p.length > 10`. -/
def validLong : JVal → Bool
  | JVal.jstr s => 10 < s.length
  | _ => false

/-- The string content of a JSON value when it is a string, mirroring the
fallback filter `typeof p === 'string'` (line 148). -/
def asStr : JVal → Option (List Char)
  | JVal.jstr s => some s
  | _ => none

/-- Embeds the shape validation of lines 135-149, shared verbatim by both
source copies: accept an object whose `prompts` field is an array holding
at least 3 strings longer than 10 characters, returning the first 3 such;
otherwise accept a bare top-level array of length at least 3, returning
the strings among its first 3 entries; otherwise reject. -/
def promptsFromJson (js : JVal) : Option (List (List Char)) :=
  match getPromptsField js with
  | some ps =>
    if 3 ≤ (ps.filter validLong).length then
      some (((ps.filter validLong).take 3).filterMap asStr)
    else
      match js with
      | JVal.jarr xs =>
        if 3 ≤ xs.length then some ((xs.take 3).filterMap asStr) else none
      | _ => none
  | none =>
    match js with
    | JVal.jarr xs =>
      if 3 ≤ xs.length then some ((xs.take 3).filterMap asStr) else none
    | _ => none

/-- The error thrown from the `catch` block of the services copy when
`JSON.parse` fails (line 153). -/
def errParseFail : String :=
  "The AI failed to return valid rotation instructions. Please try a different image."

/-- The malformed-response error thrown after the try block (line 157),
also reached by the part_001 copy when `JSON.parse` fails. -/
def errMalformed : String :=
  "Could not get valid rotation prompts from the AI. The response was malformed."

/-- Embeds the parsing stage of `getRotationPrompts` in
src/services/geminiService.ts (lines 119-157): preprocess, `JSON.parse`
(whose failure is rethrown from the catch block as `errParseFail`),
validate the shape, and otherwise throw `errMalformed`. -/
def getRotationPromptsSvc (raw : List Char) : Except String (List (List Char)) :=
  match jsonParse (preprocess raw) with
  | none => Except.error errParseFail
  | some js =>
    match promptsFromJson js with
    | some ps => Except.ok ps
    | none => Except.error errMalformed

/-- Embeds the parsing stage of the duplicate `getRotationPrompts` in
src/unnamed/part_001 (lines 95-133): identical preprocessing and shape
validation, but its catch block only logs, so a `JSON.parse` failure falls
through to the final `errMalformed` throw. -/
def getRotationPromptsApp (raw : List Char) : Except String (List (List Char)) :=
  match jsonParse (preprocess raw) with
  | none => Except.error errMalformed
  | some js =>
    match promptsFromJson js with
    | some ps => Except.ok ps
    | none => Except.error errMalformed

/-- Spec-side success condition for the parsing stage, written from the
(amended) specification words: the parsed value is either an object whose
`prompts` field is an array with at least 3 string entries longer than 10
characters — the result being the first 3 such entries — or a bare
top-level array with at least 3 entries — the result being the string
entries among its first 3. -/
def PromptShapeSpec (js : JVal) (ps : List (List Char)) : Prop :=
  (∃ fs qs, js = JVal.jobj fs ∧ lookupLast promptsKey fs = some (JVal.jarr qs) ∧
      3 ≤ (qs.filter validLong).length ∧ ps = ((qs.filter validLong).take 3).filterMap asStr)
  ∨ (∃ xs, js = JVal.jarr xs ∧ 3 ≤ xs.length ∧ ps = (xs.take 3).filterMap asStr)

/-- Helper: the object check of line 136 succeeds with array `qs` exactly
when the value is an object whose `prompts` field is the array `qs`. -/
theorem getPromptsField_jobj (fs : List (List Char × JVal)) (qs : List JVal) :
    getPromptsField (JVal.jobj fs) = some qs ↔
      lookupLast promptsKey fs = some (JVal.jarr qs) := by
  simp only [getPromptsField]
  cases h : lookupLast promptsKey fs with
  | none => simp
  | some v => cases v <;> simp_all

/-- Helper: shape validation on an object value succeeds exactly through
the documented `prompts`-field path. -/
theorem promptsFromJson_jobj (fs : List (List Char × JVal)) (ps : List (List Char)) :
    promptsFromJson (JVal.jobj fs) = some ps ↔
      ∃ qs, lookupLast promptsKey fs = some (JVal.jarr qs) ∧
        3 ≤ (qs.filter validLong).length ∧
        ps = ((qs.filter validLong).take 3).filterMap asStr := by
  simp only [promptsFromJson]
  cases hg : getPromptsField (JVal.jobj fs) with
  | none =>
    dsimp only
    constructor
    · intro h; exact absurd h (by simp)
    · rintro ⟨qs, hq, _, _⟩
      exact absurd ((getPromptsField_jobj fs qs).mpr hq) (by simp [hg])
  | some qs0 =>
    have hq0 := (getPromptsField_jobj fs qs0).mp hg
    dsimp only
    split_ifs with h3
    · constructor
      · intro h
        exact ⟨qs0, hq0, h3, (Option.some.inj h).symm⟩
      · rintro ⟨qs, hq, h3', hps⟩
        rw [hq0] at hq
        injection hq with h1
        injection h1 with h2
        subst h2
        rw [hps]
    · constructor
      · intro h; exact absurd h (by simp)
      · rintro ⟨qs, hq, h3', _⟩
        rw [hq0] at hq
        injection hq with h1
        injection h1 with h2
        subst h2
        exact absurd h3' h3

/-- Helper: shape validation on a bare array succeeds exactly through the
fallback path. -/
theorem promptsFromJson_jarr (xs : List JVal) (ps : List (List Char)) :
    promptsFromJson (JVal.jarr xs) = some ps ↔
      3 ≤ xs.length ∧ ps = (xs.take 3).filterMap asStr := by
  simp only [promptsFromJson, getPromptsField]
  split_ifs with h3
  · constructor
    · intro h; exact ⟨h3, (Option.some.inj h).symm⟩
    · rintro ⟨_, hps⟩; rw [hps]
  · constructor
    · intro h; exact absurd h (by simp)
    · rintro ⟨h3', _⟩; exact absurd h3' h3

/-- Helper: the shape validation succeeds exactly on the two accepted
shapes, with the corresponding outputs. -/
theorem promptsFromJson_eq_some_iff (js : JVal) (ps : List (List Char)) :
    promptsFromJson js = some ps ↔ PromptShapeSpec js ps := by
  cases js with
  | jobj fs =>
    rw [promptsFromJson_jobj]
    unfold PromptShapeSpec
    constructor
    · rintro ⟨qs, hq, h3, hps⟩
      exact Or.inl ⟨fs, qs, rfl, hq, h3, hps⟩
    · rintro (⟨fs', qs, hfs, hq, h3, hps⟩ | ⟨xs, hx, _⟩)
      · injection hfs with h1; subst h1; exact ⟨qs, hq, h3, hps⟩
      · exact absurd hx (by simp)
  | jarr xs =>
    rw [promptsFromJson_jarr]
    unfold PromptShapeSpec
    constructor
    · rintro ⟨h3, hps⟩
      exact Or.inr ⟨xs, rfl, h3, hps⟩
    · rintro (⟨fs, qs, hfs, _⟩ | ⟨ys, hys, h3, hps⟩)
      · exact absurd hfs (by simp)
      · injection hys with h1; subst h1; exact ⟨h3, hps⟩
  | jnull =>
    unfold PromptShapeSpec
    constructor
    · intro h; exact absurd h (by simp [promptsFromJson, getPromptsField])
    · rintro (⟨fs, qs, hfs, _⟩ | ⟨xs, hx, _⟩)
      · exact absurd hfs (by simp)
      · exact absurd hx (by simp)
  | jbool b =>
    unfold PromptShapeSpec
    constructor
    · intro h; exact absurd h (by simp [promptsFromJson, getPromptsField])
    · rintro (⟨fs, qs, hfs, _⟩ | ⟨xs, hx, _⟩)
      · exact absurd hfs (by simp)
      · exact absurd hx (by simp)
  | jnum raw =>
    unfold PromptShapeSpec
    constructor
    · intro h; exact absurd h (by simp [promptsFromJson, getPromptsField])
    · rintro (⟨fs, qs, hfs, _⟩ | ⟨xs, hx, _⟩)
      · exact absurd hfs (by simp)
      · exact absurd hx (by simp)
  | jstr s =>
    unfold PromptShapeSpec
    constructor
    · intro h; exact absurd h (by simp [promptsFromJson, getPromptsField])
    · rintro (⟨fs, qs, hfs, _⟩ | ⟨xs, hx, _⟩)
      · exact absurd hfs (by simp)
      · exact absurd hx (by simp)

/-- C3 (amended: the source accepts string entries longer than 10
characters — not merely non-empty — and also accepts a bare top-level
array of length at least 3 as a fallback shape): the parsing stage of
`getRotationPrompts` succeeds exactly when, after stripping code-fence
markers and extracting the brace-bounded substring, the text parses as
JSON matching one of the two accepted shapes, returning the corresponding
first-3 selection; a JSON parse failure yields the parse-failure error and
a parsed value of neither shape yields the malformed-response error. -/
theorem getRotationPrompts_parse_spec (raw : List Char) :
    (getRotationPromptsSvc raw = Except.error errParseFail ↔
      jsonParse (preprocess raw) = none)
    ∧ (∀ ps, getRotationPromptsSvc raw = Except.ok ps ↔
        ∃ js, jsonParse (preprocess raw) = some js ∧ PromptShapeSpec js ps)
    ∧ (getRotationPromptsSvc raw = Except.error errMalformed ↔
        ∃ js, jsonParse (preprocess raw) = some js ∧ ∀ ps, ¬ PromptShapeSpec js ps) := by
  have hne : errParseFail ≠ errMalformed := by decide
  unfold getRotationPromptsSvc
  cases hp : jsonParse (preprocess raw) with
  | none =>
    dsimp only
    refine ⟨by simp, fun ps => by simp, ?_⟩
    constructor
    · intro h
      exact absurd (Except.error.inj h) hne
    · rintro ⟨js, hjs, _⟩
      exact absurd hjs (by simp)
  | some js =>
    dsimp only
    cases hq : promptsFromJson js with
    | some ps0 =>
      dsimp only
      refine ⟨by simp, fun ps => ?_, ?_⟩
      · constructor
        · intro h
          obtain rfl : ps0 = ps := Except.ok.inj h
          exact ⟨js, rfl, (promptsFromJson_eq_some_iff js ps0).mp hq⟩
        · rintro ⟨js', hjs, hshape⟩
          obtain rfl : js = js' := Option.some.inj hjs
          rw [(promptsFromJson_eq_some_iff js ps).mpr hshape] at hq
          rw [Option.some.inj hq]
      · constructor
        · intro h; exact absurd h (by simp)
        · rintro ⟨js', hjs, hall⟩
          obtain rfl : js = js' := Option.some.inj hjs
          exact absurd ((promptsFromJson_eq_some_iff js ps0).mp hq) (hall ps0)
    | none =>
      dsimp only
      refine ⟨?_, fun ps => ?_, ?_⟩
      · constructor
        · intro h
          exact absurd (Except.error.inj h) (Ne.symm hne)
        · rintro hjs
          exact absurd hjs (by simp)
      · constructor
        · intro h; exact absurd h (by simp)
        · rintro ⟨js', hjs, hshape⟩
          obtain rfl : js = js' := Option.some.inj hjs
          rw [(promptsFromJson_eq_some_iff js ps).mpr hshape] at hq
          exact absurd hq (by simp)
      · constructor
        · intro _
          refine ⟨js, rfl, fun ps hshape => ?_⟩
          rw [(promptsFromJson_eq_some_iff js ps).mpr hshape] at hq
          exact absurd hq (by simp)
        · intro _
          rfl

/-- Counterexample to C3 as stated: the text is valid JSON whose `prompts`
field is an array of 3 non-empty strings, yet the parsing stage throws the
malformed-response error, because the source requires each entry to be
longer than 10 characters. -/
theorem getRotationPrompts_nonempty_cex :
    jsonParse (preprocess (String.toList "\x7b\"prompts\":[\"abc\",\"def\",\"ghi\"]\x7d")) =
      some (JVal.jobj [(promptsKey, JVal.jarr
        [JVal.jstr (String.toList "abc"), JVal.jstr (String.toList "def"),
         JVal.jstr (String.toList "ghi")])])
    ∧ (∀ s ∈ [String.toList "abc", String.toList "def", String.toList "ghi"],
        s.length ≠ 0)
    ∧ getRotationPromptsSvc (String.toList "\x7b\"prompts\":[\"abc\",\"def\",\"ghi\"]\x7d") =
        Except.error errMalformed :=
  ⟨rfl, by decide, rfl⟩

/-- Concrete well-formed model response used as the C3 witness input. -/
def goodRaw : List Char :=
  String.toList "\x7b\"prompts\":[\"aaaaaaaaaaa\",\"bbbbbbbbbbb\",\"ccccccccccc\"]\x7d"

/-- Witness for C3 (amended): at a concrete response whose `prompts` array
holds exactly 3 strings longer than 10 characters, the success direction
of the characterization applies and the stage returns those 3 prompts. -/
theorem getRotationPrompts_parse_spec_witness :
    getRotationPromptsSvc goodRaw = Except.ok
      [String.toList "aaaaaaaaaaa", String.toList "bbbbbbbbbbb",
       String.toList "ccccccccccc"] := by
  refine ((getRotationPrompts_parse_spec goodRaw).2.1 _).mpr ?_
  refine ⟨JVal.jobj [(promptsKey, JVal.jarr
    [JVal.jstr (String.toList "aaaaaaaaaaa"), JVal.jstr (String.toList "bbbbbbbbbbb"),
     JVal.jstr (String.toList "ccccccccccc")])], rfl, Or.inl ?_⟩
  exact ⟨_, _, rfl, rfl, by decide, rfl⟩

/-- Helper: `filterMap asStr` preserves the length of a list whose entries
all pass the string filter. -/
theorem filterMap_asStr_length (l : List JVal) (h : ∀ x ∈ l, validLong x = true) :
    (l.filterMap asStr).length = l.length := by
  induction l with
  | nil => rfl
  | cons a tl ih =>
    have ha := h a (List.mem_cons_self a tl)
    cases a with
    | jstr s =>
      simp only [List.filterMap_cons, asStr, List.length_cons]
      exact congrArg (· + 1) (ih (fun x hx => h x (List.mem_cons_of_mem _ hx)))
    | jnull => simp [validLong] at ha
    | jbool b => simp [validLong] at ha
    | jnum raw => simp [validLong] at ha
    | jarr xs => simp [validLong] at ha
    | jobj fs => simp [validLong] at ha

/-- Helper: a successful parsing stage factors through `JSON.parse` and the
shape validation. -/
theorem getRotationPromptsSvc_ok (raw : List Char) (ps : List (List Char))
    (h : getRotationPromptsSvc raw = Except.ok ps) :
    ∃ js, jsonParse (preprocess raw) = some js ∧ promptsFromJson js = some ps := by
  unfold getRotationPromptsSvc at h
  cases hp : jsonParse (preprocess raw) with
  | none => rw [hp] at h; exact absurd h (by simp)
  | some js =>
    rw [hp] at h
    dsimp only at h
    cases hq : promptsFromJson js with
    | none => rw [hq] at h; exact absurd h (by simp)
    | some ps0 =>
      rw [hq] at h
      dsimp only at h
      obtain rfl : ps0 = ps := Except.ok.inj h
      exact ⟨js, rfl, hq⟩

/-- C4 (amended: through the documented object shape the result has
exactly 3 prompts, but through the bare-array fallback it is only the
string entries among the first 3, which may be fewer): every success of
the parsing stage returns at most 3 prompts, and exactly 3 whenever the
parsed value is an object. -/
theorem getRotationPrompts_count_spec (raw : List Char) (ps : List (List Char))
    (h : getRotationPromptsSvc raw = Except.ok ps) :
    ps.length ≤ 3 ∧
      (∀ fs, jsonParse (preprocess raw) = some (JVal.jobj fs) → ps.length = 3) := by
  obtain ⟨js, hp, hq⟩ := getRotationPromptsSvc_ok raw ps h
  rcases (promptsFromJson_eq_some_iff js ps).mp hq with
    ⟨fs0, qs, hjs, hq2, h3, hps⟩ | ⟨xs, hjs, h3, hps⟩
  · subst hjs
    have hall : ∀ x ∈ (qs.filter validLong).take 3, validLong x = true :=
      fun x hx => (List.mem_filter.mp (List.take_subset _ _ hx)).2
    have hlen : ps.length = 3 := by
      rw [hps, filterMap_asStr_length _ hall, List.length_take]
      omega
    exact ⟨by omega, fun _ _ => hlen⟩
  · subst hjs
    refine ⟨?_, ?_⟩
    · rw [hps]
      calc ((xs.take 3).filterMap asStr).length
          ≤ (xs.take 3).length := List.length_filterMap_le _ _
        _ ≤ 3 := List.length_take_le _ _
    · intro fs hfs
      rw [hp] at hfs
      exact absurd (Option.some.inj hfs) (by simp)

/-- Counterexample to C4 as stated: the bare-array fallback succeeds on
the response text `[1,2,3]` yet returns zero prompt strings, because the
source slices the first 3 entries before filtering out non-strings. -/
theorem getRotationPrompts_three_cex :
    getRotationPromptsSvc (String.toList "[1,2,3]") = Except.ok []
    ∧ ([] : List (List Char)).length ≠ 3 :=
  ⟨rfl, by decide⟩

/-- Witness for C4 (amended): applied to the concrete fallback success on
`[1,2,3]`, whose result (the empty list) has length at most 3. -/
theorem getRotationPrompts_count_witness :
    (([] : List (List Char)).length ≤ 3) ∧
      (∀ fs, jsonParse (preprocess (String.toList "[1,2,3]")) = some (JVal.jobj fs) →
        ([] : List (List Char)).length = 3) :=
  getRotationPrompts_count_spec (String.toList "[1,2,3]") [] rfl

/-- C10 (amended: the two copies agree on every success and on which
inputs fail, but when `JSON.parse` fails the services copy throws the
parse-failure error while the part_001 copy throws the malformed-response
error): the parsing stages of the two `getRotationPrompts` copies are
equal whenever the preprocessed text parses as JSON, and differ exactly in
the error value when it does not. -/
theorem getRotationPrompts_copies_agree (raw : List Char) :
    (jsonParse (preprocess raw) = none →
      getRotationPromptsSvc raw = Except.error errParseFail ∧
        getRotationPromptsApp raw = Except.error errMalformed)
    ∧ (∀ js, jsonParse (preprocess raw) = some js →
        getRotationPromptsSvc raw = getRotationPromptsApp raw) := by
  constructor
  · intro h
    unfold getRotationPromptsSvc getRotationPromptsApp
    rw [h]
    exact ⟨rfl, rfl⟩
  · intro js h
    unfold getRotationPromptsSvc getRotationPromptsApp
    rw [h]

/-- Counterexample to C10 as stated: on the unparsable text `hello` both
copies fail, but with different error values, so they are not equivalent
as claimed ("both fail with the same error"). -/
theorem getRotationPrompts_copies_cex :
    getRotationPromptsSvc (String.toList "hello") = Except.error errParseFail
    ∧ getRotationPromptsApp (String.toList "hello") = Except.error errMalformed
    ∧ errParseFail ≠ errMalformed :=
  ⟨rfl, rfl, by decide⟩

/-- Witness for C10 (amended): at the concrete parsable input `[1,2,3]`
the two copies return the same result. -/
theorem getRotationPrompts_copies_agree_witness :
    getRotationPromptsSvc (String.toList "[1,2,3]") =
      getRotationPromptsApp (String.toList "[1,2,3]") :=
  (getRotationPrompts_copies_agree (String.toList "[1,2,3]")).2
    (JVal.jarr [JVal.jnum ['1'], JVal.jnum ['2'], JVal.jnum ['3']]) rfl

/-! ### Image generation: request building and response handling

Embedding of `generateRotatedImage` (src/services/geminiService.ts lines
160-205): the prompt/style request construction and the scan of the hosted
response for the first inline-image part. -/

/-- Model variant selector, `export type ModelMode = 'standard' | 'pro'`. -/
inductive ModelMode where
  | standard
  | pro
deriving DecidableEq

/-- The inline payload of a response part: MIME type and base64 data. -/
structure InlineData where
  mimeType : String
  data : String
deriving DecidableEq

/-- One part of a response candidate's content; only the presence of
`inlineData` matters to the source. -/
structure RespPart where
  inlineData : Option InlineData
deriving DecidableEq

/-- A candidate's content, with the optional parts array mirrored from the
optional chain `content?.parts?`. -/
structure RespContent where
  parts : Option (List RespPart)
deriving DecidableEq

/-- One response candidate with its optional content. -/
structure Candidate where
  content : Option RespContent
deriving DecidableEq

/-- The hosted model response as inspected by the source. -/
structure GenResponse where
  candidates : Option (List Candidate)
deriving DecidableEq

/-- The style-instruction suffix appended for non-default styles
(line 178). -/
def styleSuffix (style : String) : String :=
  "\n\nIMPORTANT: Render this image in the style of: " ++ style ++
    ". Maintain the subject's identity but apply this art style strongly."

/-- Embeds the prompt modification of lines 176-179: the prompt is
submitted unchanged for the default style `Realistic` and augmented with
`styleSuffix` for every other style. -/
def finalPrompt (prompt style : String) : String :=
  if style ≠ "Realistic" then prompt ++ styleSuffix style else prompt

/-- The request that `generateRotatedImage` submits (lines 174-195):
model name selected by mode, an inline-image part plus a text part holding
the (possibly augmented) prompt, and the aspect-value configuration. -/
structure ImageRequest where
  model : String
  imageData : String
  imageMime : String
  textPart : String
  aspect : String
deriving DecidableEq

/-- Embeds the request construction of `generateRotatedImage`: its `model`,
`contents.parts` and `config.imageConfig` fields as functions of the
arguments (the JS field `aspectRatio` is rendered here as `aspect`). -/
def buildImageRequest (base64Image mimeType prompt : String) (mode : ModelMode)
    (style aspectVal : String) : ImageRequest :=
  { model := if mode = ModelMode.pro then "gemini-3-pro-image-preview"
             else "gemini-2.5-flash-image",
    imageData := base64Image,
    imageMime := mimeType,
    textPart := finalPrompt prompt style,
    aspect := aspectVal }

/-- The error thrown when no inline-image part is found (line 204). -/
def errNoImage : String :=
  "The AI did not return an image. It might not be able to process this request."

/-- Embeds the part scan of line 197:
`response.candidates?.[0]?.content?.parts?.find(part => part.inlineData)`. -/
def findImagePart (r : GenResponse) : Option RespPart :=
  match r.candidates with
  | none => none
  | some cs =>
    match cs.head? with
    | none => none
    | some c =>
      match c.content with
      | none => none
      | some ct =>
        match ct.parts with
        | none => none
        | some ps => ps.find? (fun p => p.inlineData.isSome)

/-- Embeds the response handling of `generateRotatedImage` (lines
197-204): build a data URI from the first part carrying inline image data,
or throw `errNoImage`. -/
def generateRotatedImage (r : GenResponse) : Except String String :=
  match findImagePart r with
  | some p =>
    match p.inlineData with
    | some d => Except.ok ("data:" ++ d.mimeType ++ ";base64," ++ d.data)
    | none => Except.error errNoImage
  | none => Except.error errNoImage

/-- The parts list of the first candidate's content, the list scanned by
the source; empty when any link of the optional chain is absent. -/
def firstCandidateParts (r : GenResponse) : List RespPart :=
  match r.candidates with
  | some (c :: _) =>
    match c.content with
    | some ct =>
      match ct.parts with
      | some ps => ps
      | none => []
    | none => []
  | _ => []

/-- Helper: the source's part scan is the first-match search over the first
candidate's parts. -/
theorem findImagePart_eq (r : GenResponse) :
    findImagePart r = (firstCandidateParts r).find? (fun p => p.inlineData.isSome) := by
  obtain ⟨cs⟩ := r
  cases cs with
  | none => rfl
  | some l =>
    cases l with
    | nil => rfl
    | cons c tl =>
      obtain ⟨ct⟩ := c
      cases ct with
      | none => rfl
      | some ctv =>
        obtain ⟨ps⟩ := ctv
        cases ps with
        | none => rfl
        | some l2 => rfl

/-- Helper: `find?` returns the entry at the first index whose `inlineData`
is present when all earlier entries lack it. -/
theorem find_isSome_at_first_index (l : List RespPart) :
    ∀ (i : Nat) (hi : i < l.length) (d : InlineData),
    (l.get ⟨i, hi⟩).inlineData = some d →
    (∀ (j : Nat) (hj : j < i), (l.get ⟨j, Nat.lt_trans hj hi⟩).inlineData = none) →
    l.find? (fun p => p.inlineData.isSome) = some (l.get ⟨i, hi⟩) := by
  induction l with
  | nil => intro i hi; simp at hi
  | cons a tl ih =>
    intro i hi d hd hbefore
    cases i with
    | zero =>
      simp only [List.get] at hd
      rw [List.find?_cons_of_pos _ (by simp [hd])]
      rfl
    | succ i =>
      have ha : a.inlineData = none := by
        have := hbefore 0 (Nat.succ_pos i)
        simpa using this
      rw [List.find?_cons_of_neg _ (by simp [ha])]
      exact ih i (Nat.lt_of_succ_lt_succ hi) d (by simpa using hd)
        (fun j hj => by
          have := hbefore (j + 1) (Nat.succ_lt_succ hj)
          simpa using this)

/-- C5: `generateRotatedImage` returns the data URI built from the MIME
type and payload of the first part of the first candidate's content that
carries inline image data, and it throws the no-image error exactly when
no part of that content carries inline data. -/
theorem generateRotatedImage_spec (r : GenResponse) :
    (∀ (i : Nat) (hi : i < (firstCandidateParts r).length) (d : InlineData),
      ((firstCandidateParts r).get ⟨i, hi⟩).inlineData = some d →
      (∀ (j : Nat) (hj : j < i),
        ((firstCandidateParts r).get ⟨j, Nat.lt_trans hj hi⟩).inlineData = none) →
      generateRotatedImage r = Except.ok ("data:" ++ d.mimeType ++ ";base64," ++ d.data))
    ∧ ((∀ p ∈ firstCandidateParts r, p.inlineData = none) ↔
      generateRotatedImage r = Except.error errNoImage) := by
  constructor
  · intro i hi d hd hbefore
    have hfind := find_isSome_at_first_index (firstCandidateParts r) i hi d hd hbefore
    unfold generateRotatedImage
    rw [findImagePart_eq, hfind]
    dsimp only
    rw [hd]
  · constructor
    · intro hall
      have hfind : (firstCandidateParts r).find? (fun p => p.inlineData.isSome) = none := by
        rw [List.find?_eq_none]
        intro p hp
        simp [hall p hp]
      unfold generateRotatedImage
      rw [findImagePart_eq, hfind]
    · intro h p hp
      by_contra hne
      obtain ⟨d, hd⟩ := Option.ne_none_iff_exists'.mp hne
      unfold generateRotatedImage at h
      rw [findImagePart_eq] at h
      cases hfind : (firstCandidateParts r).find? (fun p => p.inlineData.isSome) with
      | none =>
        rw [List.find?_eq_none] at hfind
        exact hfind p hp (by simp [hd])
      | some q =>
        rw [hfind] at h
        have hq := List.find?_some hfind
        obtain ⟨dq, hdq⟩ := Option.isSome_iff_exists.mp hq
        dsimp only at h
        rw [hdq] at h
        exact absurd h (by simp)

/-- Concrete response for the C5 witness: first part has no inline data,
the second carries a PNG payload. -/
def respWithImage : GenResponse :=
  ⟨some [⟨some ⟨some [⟨none⟩, ⟨some ⟨"image/png", "QUFB"⟩⟩]⟩⟩]⟩

/-- Witness for C5: on the concrete response the first inline part sits at
index 1 and the returned value is the corresponding data URI. -/
theorem generateRotatedImage_witness :
    generateRotatedImage respWithImage = Except.ok "data:image/png;base64,QUFB" := by
  have h := (generateRotatedImage_spec respWithImage).1 1 (by decide)
    ⟨"image/png", "QUFB"⟩ rfl
    (fun j hj => by interval_cases j; rfl)
  simpa using h

/-- C7: for the default style `Realistic` the prompt is submitted to the
model unchanged; for every other style the submitted text is exactly the
original prompt followed by the style-instruction suffix naming that
style; the rest of the request (model name, image part, aspect value) is
the same in both cases. -/
theorem buildImageRequest_style_spec (b m p : String) (mode : ModelMode)
    (s aspectVal : String) (hs : s ≠ "Realistic") :
    buildImageRequest b m p mode "Realistic" aspectVal =
      { model := if mode = ModelMode.pro then "gemini-3-pro-image-preview"
                 else "gemini-2.5-flash-image",
        imageData := b, imageMime := m, textPart := p, aspect := aspectVal }
    ∧ buildImageRequest b m p mode s aspectVal =
      { model := if mode = ModelMode.pro then "gemini-3-pro-image-preview"
                 else "gemini-2.5-flash-image",
        imageData := b, imageMime := m, textPart := p ++ styleSuffix s,
        aspect := aspectVal } := by
  constructor
  · simp [buildImageRequest, finalPrompt]
  · simp [buildImageRequest, finalPrompt, hs]

/-- Witness for C7: at the concrete non-default style `Sketch` the text
part is the prompt followed by the suffix naming `Sketch`, and with
`Realistic` it is the bare prompt. -/
theorem buildImageRequest_style_witness :
    buildImageRequest "IMG" "image/png" "a prompt" ModelMode.standard
        "Realistic" "1:1" =
      { model := "gemini-2.5-flash-image", imageData := "IMG",
        imageMime := "image/png", textPart := "a prompt", aspect := "1:1" }
    ∧ buildImageRequest "IMG" "image/png" "a prompt" ModelMode.standard
        "Sketch" "1:1" =
      { model := "gemini-2.5-flash-image", imageData := "IMG",
        imageMime := "image/png", textPart := "a prompt" ++ styleSuffix "Sketch",
        aspect := "1:1" } := by
  have h := buildImageRequest_style_spec "IMG" "image/png" "a prompt"
    ModelMode.standard "Sketch" "1:1" (by decide)
  exact ⟨by rw [h.1]; rfl, by rw [h.2]; rfl⟩

/-! ### Page orchestration

Embedding of the App component state (src/unnamed/part_000) and of the
`resetState` (lines 70-76) and `processImage` (lines 99-148) handlers. The
two service calls made by `processImage` are modelled by their outcomes: a
prompts result, and a render outcome for each view index. -/

/-- One generated result entry: the produced data URI and its originating
prompt (interface `GeneratedImage`). -/
structure GeneratedImage where
  src : String
  prompt : String
deriving DecidableEq

/-- The App component's state hooks relevant to the orchestration claims
(`lightboxIndex` and `checkingKey` play no role in `processImage` or
`resetState` and are omitted). -/
structure AppState where
  modelMode : ModelMode
  hasApiKey : Bool
  originalImage : Option String
  generatedImages : List GeneratedImage
  isObjectRotationOnly : Bool
  selectedStyle : String
  selectedAspect : String
  isLoading : Bool
  status : String
  error : String
deriving DecidableEq

/-- Embeds `resetState` (lines 70-76): clears the original image, the
result list, the loading flag, the status and the error. -/
def resetState (st : AppState) : AppState :=
  { st with originalImage := none, generatedImages := [],
            isLoading := false, status := "", error := "" }

/-- Embeds the error-message classification of the catch block of
`processImage` (lines 133-143): quota, overload, key errors by substring
match, and the raw message otherwise. -/
def classifyMsg (msg : String) : String :=
  if containsStr "RESOURCE_EXHAUSTED" msg || containsStr "429" msg then
    "Quota exhausted. The free tier may have been used up."
  else if containsStr "503" msg || containsStr "overloaded" msg then
    "The AI model is currently overloaded. Please try again shortly."
  else if containsStr "Requested entity was not found" msg then
    "API Key Error. Please re-select your key."
  else msg

/-- Embeds the catch block of `processImage` (lines 131-144): set the
user-visible error from the classification, drop the key flag when a
key error occurs in pro mode, and set the status to `Failed`. The
generated-image list is left untouched. -/
def classifyCatch (st : AppState) (msg : String) : AppState :=
  { st with
    error := classifyMsg msg,
    hasApiKey :=
      if ¬(containsStr "RESOURCE_EXHAUSTED" msg || containsStr "429" msg) ∧
         ¬(containsStr "503" msg || containsStr "overloaded" msg) ∧
         containsStr "Requested entity was not found" msg ∧
         st.modelMode = ModelMode.pro
      then false else st.hasApiKey,
    status := "Failed" }

/-- Embeds the sequential view-generation loop of `processImage` (lines
115-128): for each of the 3 views in order, set the progress status, call
the renderer; on success append the image paired with its prompt and
publish the accumulated list; on failure enter the catch block. `n` counts
the remaining iterations, `i` the current view index, `acc` the local
`newImages` array. -/
def processViews (renders : Nat → Except String String) (prompts : List String) :
    Nat → Nat → List GeneratedImage → AppState → AppState
  | 0, _, _, st => { st with status := "Complete" }
  | n + 1, i, acc, st =>
    let st1 := { st with status := "Generating view " ++ toString (i + 1) ++ " of 3" }
    match renders i with
    | Except.ok img =>
      let acc2 := acc ++ [⟨img, prompts.getD i ""⟩]
      processViews renders prompts n (i + 1) acc2 { st1 with generatedImages := acc2 }
    | Except.error e => classifyCatch st1 e

/-- Embeds `processImage` (lines 99-148), parameterized by the outcome of
the prompt-derivation call and of each render call: clear the error, set
the analysis status, guard the prompt count, run the three sequential view
generations, and finally clear the loading flag. -/
def processImage (st : AppState) (promptsRes : Except String (List String))
    (renders : Nat → Except String String) : AppState :=
  let st1 := { st with error := "", status := "Analyzing scene geometry..." }
  let st2 :=
    match promptsRes with
    | Except.error e => classifyCatch st1 e
    | Except.ok prompts =>
      if prompts.length < 3 then
        classifyCatch st1 "Could not determine rotation angles. Please try another image."
      else processViews renders prompts 3 0 [] st1
  { st2 with isLoading := false }

/-- C6: when prompt derivation yields `[p1, p2, p3]` and the three
sequential render calls succeed with `s1, s2, s3`, the final state holds
exactly the 3 generated entries in viewpoint order, each pairing the image
with its originating prompt, with status `Complete`; and `resetState`
afterwards clears the original image, the result list, the loading flag,
the status and the error back to the idle state. -/
theorem processImage_complete_spec (st : AppState) (p1 p2 p3 s1 s2 s3 : String)
    (renders : Nat → Except String String)
    (h0 : renders 0 = Except.ok s1) (h1 : renders 1 = Except.ok s2)
    (h2 : renders 2 = Except.ok s3) :
    (processImage st (Except.ok [p1, p2, p3]) renders).generatedImages =
      [⟨s1, p1⟩, ⟨s2, p2⟩, ⟨s3, p3⟩]
    ∧ (processImage st (Except.ok [p1, p2, p3]) renders).status = "Complete"
    ∧ (processImage st (Except.ok [p1, p2, p3]) renders).isLoading = false
    ∧ (processImage st (Except.ok [p1, p2, p3]) renders).error = ""
    ∧ (resetState (processImage st (Except.ok [p1, p2, p3]) renders)).originalImage = none
    ∧ (resetState (processImage st (Except.ok [p1, p2, p3]) renders)).generatedImages = []
    ∧ (resetState (processImage st (Except.ok [p1, p2, p3]) renders)).isLoading = false
    ∧ (resetState (processImage st (Except.ok [p1, p2, p3]) renders)).status = ""
    ∧ (resetState (processImage st (Except.ok [p1, p2, p3]) renders)).error = "" := by
  have hrun : processImage st (Except.ok [p1, p2, p3]) renders =
      { st with error := "", status := "Complete", isLoading := false,
                generatedImages := [⟨s1, p1⟩, ⟨s2, p2⟩, ⟨s3, p3⟩] } := by
    unfold processImage
    dsimp only
    rw [if_neg (by simp)]
    unfold processViews
    rw [h0]
    dsimp only
    unfold processViews
    rw [h1]
    dsimp only
    unfold processViews
    rw [h2]
    dsimp only
    unfold processViews
    rfl
  rw [hrun]
  exact ⟨rfl, rfl, rfl, rfl, rfl, rfl, rfl, rfl, rfl⟩

/-- Concrete renders for the C6 witness. -/
def rendersOk : Nat → Except String String :=
  fun i => Except.ok ("img" ++ toString i)

/-- The App state at mount (useState initial values, lines 23-40). -/
def initialAppState : AppState :=
  ⟨ModelMode.standard, false, none, [], false, "Realistic", "1:1", false, "", ""⟩

/-- Witness for C6: a fully successful concrete run yields the 3 paired
entries, status `Complete`, and reset returns the cleared idle fields. -/
theorem processImage_complete_witness :
    (processImage initialAppState (Except.ok ["p1", "p2", "p3"]) rendersOk).generatedImages =
      [⟨"img0", "p1"⟩, ⟨"img1", "p2"⟩, ⟨"img2", "p3"⟩]
    ∧ (processImage initialAppState (Except.ok ["p1", "p2", "p3"]) rendersOk).status = "Complete"
    ∧ (resetState (processImage initialAppState (Except.ok ["p1", "p2", "p3"]) rendersOk)).generatedImages = [] := by
  have h := processImage_complete_spec initialAppState "p1" "p2" "p3"
    "img0" "img1" "img2" rendersOk rfl rfl rfl
  exact ⟨h.1, h.2.1, h.2.2.2.2.2.1⟩

/-- C8: if the run fails after `k` of the 3 view generations succeeded
(`k = 1` or `k = 2`), the `k` already-generated images remain in the
result list, in order and paired with their prompts, and the run status
becomes `Failed`. -/
theorem processImage_failed_run_spec (st : AppState) (p1 p2 p3 s1 s2 e : String)
    (renders : Nat → Except String String) (h0 : renders 0 = Except.ok s1) :
    (renders 1 = Except.error e →
      (processImage st (Except.ok [p1, p2, p3]) renders).generatedImages = [⟨s1, p1⟩]
      ∧ (processImage st (Except.ok [p1, p2, p3]) renders).status = "Failed")
    ∧ (renders 1 = Except.ok s2 → renders 2 = Except.error e →
      (processImage st (Except.ok [p1, p2, p3]) renders).generatedImages =
        [⟨s1, p1⟩, ⟨s2, p2⟩]
      ∧ (processImage st (Except.ok [p1, p2, p3]) renders).status = "Failed") := by
  constructor
  · intro h1
    have hrun : processImage st (Except.ok [p1, p2, p3]) renders =
        { (classifyCatch
            { st with error := "", generatedImages := [⟨s1, p1⟩],
                      status := "Generating view 2 of 3" } e) with
          isLoading := false } := by
      unfold processImage
      dsimp only
      rw [if_neg (by simp)]
      unfold processViews
      rw [h0]
      dsimp only
      unfold processViews
      rw [h1]
      rfl
    rw [hrun]
    exact ⟨rfl, rfl⟩
  · intro h1 h2
    have hrun : processImage st (Except.ok [p1, p2, p3]) renders =
        { (classifyCatch
            { st with error := "", generatedImages := [⟨s1, p1⟩, ⟨s2, p2⟩],
                      status := "Generating view 3 of 3" } e) with
          isLoading := false } := by
      unfold processImage
      dsimp only
      rw [if_neg (by simp)]
      unfold processViews
      rw [h0]
      dsimp only
      unfold processViews
      rw [h1]
      dsimp only
      unfold processViews
      rw [h2]
      rfl
    rw [hrun]
    exact ⟨rfl, rfl⟩

/-- Concrete renders for the C8 witness: view 1 succeeds, view 2 fails. -/
def rendersFailSecond : Nat → Except String String :=
  fun i => if i = 0 then Except.ok "img0" else Except.error "boom"

/-- Witness for C8: in the concrete run failing at the second view, the
first generated image survives in the result list and the status is
`Failed`. -/
theorem processImage_failed_run_witness :
    (processImage initialAppState (Except.ok ["p1", "p2", "p3"]) rendersFailSecond).generatedImages =
      [⟨"img0", "p1"⟩]
    ∧ (processImage initialAppState (Except.ok ["p1", "p2", "p3"]) rendersFailSecond).status =
      "Failed" :=
  (processImage_failed_run_spec initialAppState "p1" "p2" "p3" "img0" ""
    "boom" rendersFailSecond rfl).1 rfl

end PhotoRot
